import Mathlib

/-!
Shallow embedding of the chainledger repository.

The embedding follows the Python sources:
  * `src/blockchain.py` — `Block`, `Blockchain` (chain, pending buffer, validity scan,
    evidence scan fallback, `to_dict` / `from_dict`);
  * `src/database.py`   — `BlockchainDatabase` (blocks / evidence / transfers tables,
    `save_block`, `_process_block_transactions`, `get_all_blocks`);
  * `src/network.py`    — `NetworkNode` routes (`/sync`, `/transaction/receive`,
    `/evidence`, `/chain`).

Modelling conventions:
  * Python transaction dicts are association lists of string fields (`Obj`).
  * `Block.calculate_hash` (SHA-256 over a canonical JSON dump) is modelled as an
    arbitrary digest function `hashFn : BlockCore → String` passed explicitly; all
    theorems hold for every such function, hence for SHA-256 in particular.
    `hashFn0` is a concrete instantiation used by closed examples.
  * Wall-clock reads (`time.time()`, `datetime.now().isoformat()`) are passed in as
    explicit `now` / `ts` arguments.
  * `save_block` catches storage exceptions, rolls back and returns `False`; the
    possibility of a failing write is modelled by the Boolean `saveFail` argument
    (on failure the database state is left unchanged, mirroring the rollback).
  * The `node_info` bookkeeping table and the wall-clock `last_updated` column
    default (`CURRENT_TIMESTAMP`) are not referenced by any claim; `last_updated`
    is kept as a field and set to `none` on insert (default) and to the
    transaction timestamp on transfer updates, as in `_process_block_transactions`.
-/

/-- A JSON object with string-valued fields, as used for the Python transaction
dictionaries built in `src/blockchain.py`. -/
abbrev Obj := List (String × String)

/-- Python `dict.get(key)`: the first binding of the key, `none` when absent. -/
def Obj.get (o : Obj) (k : String) : Option String :=
  (o.find? (fun p => p.1 == k)).map (fun p => p.2)

/-- Python `a or b` on optional strings: `None` and `""` are falsy. -/
def pyOr (a b : Option String) : Option String :=
  match a with
  | some s => if s = "" then b else some s
  | none => b

/-- `block.data`: the genesis block holds a marker dict, sealed blocks hold a
transaction list (`isinstance(block.data, list)` distinguishes the two). -/
inductive BlockData where
  | obj (fields : Obj)
  | txList (txs : List Obj)
deriving DecidableEq, Repr

/-- The five fields over which `Block.calculate_hash` computes the digest. -/
structure BlockCore where
  index : Nat
  timestamp : Nat
  data : BlockData
  previous_hash : String
  nonce : Nat
deriving DecidableEq, Repr

/-- A block as held in memory (`Block` in `src/blockchain.py`): the five core
fields plus the stored `hash` attribute. -/
structure Block where
  index : Nat
  timestamp : Nat
  data : BlockData
  previous_hash : String
  nonce : Nat
  hash : String
deriving DecidableEq, Repr

/-- The digest input of a block, i.e. the argument of `calculate_hash`. -/
def Block.core (b : Block) : BlockCore :=
  ⟨b.index, b.timestamp, b.data, b.previous_hash, b.nonce⟩

/-- `Block.__init__`: stores the fields and sets `hash = calculate_hash()`. -/
def mkBlock (hashFn : BlockCore → String) (index timestamp : Nat) (data : BlockData)
    (previous_hash : String) (nonce : Nat) : Block :=
  { index := index, timestamp := timestamp, data := data,
    previous_hash := previous_hash, nonce := nonce,
    hash := hashFn ⟨index, timestamp, data, previous_hash, nonce⟩ }

/-- Loop body of `Blockchain.is_chain_valid`: `prev` is `chain[i-1]`, the list
argument is `chain[i:]`; each step checks the stored hash against the recomputed
digest and the `previous_hash` link, returning `false` at the first violation. -/
def isChainValidFrom (hashFn : BlockCore → String) : Block → List Block → Bool
  | _, [] => true
  | prev, cur :: rest =>
    if cur.hash != hashFn cur.core then false
    else if cur.previous_hash != prev.hash then false
    else isChainValidFrom hashFn cur rest

/-- `Blockchain.is_chain_valid`: scans the chain from index 1; a chain of length
at most 1 makes the loop body unreachable and returns `True`. The Python method
only reads the chain, so the embedding is a pure function. -/
def isChainValid (hashFn : BlockCore → String) : List Block → Bool
  | [] => true
  | b :: rest => isChainValidFrom hashFn b rest

/-- Wire / persisted representation of a block (`Block.to_dict`): exactly the six
fields `{index, timestamp, data, previous_hash, nonce, hash}`. -/
structure BlockDict where
  index : Nat
  timestamp : Nat
  data : BlockData
  previous_hash : String
  nonce : Nat
  hash : String
deriving DecidableEq, Repr

/-- `Block.to_dict`. -/
def Block.toDict (b : Block) : BlockDict :=
  ⟨b.index, b.timestamp, b.data, b.previous_hash, b.nonce, b.hash⟩

/-- `Block.from_dict`: constructs the block through `Block.__init__` (which
recomputes the digest) and then overwrites `hash` with the stored value. -/
def Block.fromDict (hashFn : BlockCore → String) (d : BlockDict) : Block :=
  let b := mkBlock hashFn d.index d.timestamp d.data d.previous_hash d.nonce
  { b with hash := d.hash }

/-- A row of the `blocks` table (`index_num` is the primary key). -/
structure BlockRow where
  index_num : Nat
  timestamp : Nat
  data : BlockData
  previous_hash : String
  nonce : Nat
  hash : String
  node_id : String
deriving DecidableEq, Repr

/-- A row of the derived `evidence` table (`evidence_id` is the primary key). -/
structure EvidenceRow where
  evidence_id : Option String
  description : Option String
  evidence_type : Option String
  current_officer : Option String
  location : Option String
  created_by : Option String
  created_at : Option String
  last_action : Option String
  last_updated : Option String
  block_index : Nat
deriving DecidableEq, Repr

/-- A row of the derived `transfers` table (plain `INSERT`, AUTOINCREMENT id:
rows are simply appended). -/
structure TransferRow where
  evidence_id : Option String
  from_officer : Option String
  to_officer : Option String
  reason : Option String
  timestamp : Option String
  block_index : Nat
deriving DecidableEq, Repr

/-- The persistent store (`BlockchainDatabase`): the three tables referenced by
the claims. -/
structure DBState where
  blocks : List BlockRow
  evidence : List EvidenceRow
  transfers : List TransferRow
deriving DecidableEq, Repr

/-- A freshly initialised database (`init_database` creates empty tables). -/
def DBState.empty : DBState := ⟨[], [], []⟩

/-- `INSERT OR REPLACE INTO blocks`: the row with the same `index_num` is
replaced in place, otherwise the row is appended. -/
def upsertBlockRow : List BlockRow → BlockRow → List BlockRow
  | [], r => [r]
  | x :: xs, r =>
    if x.index_num == r.index_num then r :: xs else x :: upsertBlockRow xs r

/-- SQL equality on nullable key columns: `NULL` compares equal to nothing,
not even to another `NULL`. -/
def sqlKeyEq (a b : Option String) : Bool :=
  match a, b with
  | some x, some y => x == y
  | _, _ => false

/-- `INSERT OR REPLACE INTO evidence`, keyed by the `evidence_id` `TEXT PRIMARY
KEY`. SQLite permits `NULL` in a non-INTEGER primary key and `NULL` keys never
conflict, so a row whose key is `NULL` is always inserted as a fresh row (a
keyless creation is duplicated, not replaced, on re-save); on a genuine key
conflict the old row is deleted and the new row inserted at a fresh rowid,
i.e. at the end of the table. -/
def upsertEvidenceRow (l : List EvidenceRow) (r : EvidenceRow) : List EvidenceRow :=
  (l.filter fun x => !(sqlKeyEq x.evidence_id r.evidence_id)) ++ [r]

/-- The `evidence` row inserted for an `evidence_creation` transaction
(`_process_block_transactions`); `last_action` is the literal `'Created'` and
`created_by` repeats the `officer` field. -/
def evidenceCreationRow (tx : Obj) (blockIndex : Nat) : EvidenceRow :=
  { evidence_id := tx.get "evidence_id", description := tx.get "description",
    evidence_type := tx.get "evidence_type", current_officer := tx.get "officer",
    location := tx.get "location", created_by := tx.get "officer",
    created_at := tx.get "timestamp", last_action := some "Created",
    last_updated := none, block_index := blockIndex }

/-- The `transfers` row inserted for an `evidence_transfer` transaction. -/
def transferRowOf (tx : Obj) (blockIndex : Nat) : TransferRow :=
  { evidence_id := tx.get "evidence_id", from_officer := tx.get "from_officer",
    to_officer := tx.get "to_officer", reason := tx.get "reason",
    timestamp := tx.get "timestamp", block_index := blockIndex }

/-- Row effect of the `UPDATE evidence SET current_officer = ?, last_action = ?,
last_updated = ?` statement run for an `evidence_transfer` transaction. -/
def applyTransferUpdate (tx : Obj) (r : EvidenceRow) : EvidenceRow :=
  { r with current_officer := tx.get "to_officer",
           last_action := some "Transferred",
           last_updated := tx.get "timestamp" }

/-- The `transfers` table declares `evidence_id`, `from_officer`, `to_officer`
and `timestamp` as `NOT NULL`; binding `None` to any of them makes the
`INSERT INTO transfers` raise `sqlite3.IntegrityError`. -/
def transferInsertOk (tx : Obj) : Bool :=
  (Obj.get tx "evidence_id").isSome && (Obj.get tx "from_officer").isSome &&
    (Obj.get tx "to_officer").isSome && (Obj.get tx "timestamp").isSome

/-- One iteration of the transaction loop inside `_process_block_transactions`.
For a transfer, `UPDATE evidence ... WHERE evidence_id = ?` with a SQL `NULL`
parameter matches no row, hence the guard on `tx.get "evidence_id"`; the
subsequent `INSERT INTO transfers` raises `IntegrityError` — modelled as
`none` — when one of its `NOT NULL` columns would be bound to `None`, which
aborts the enclosing `save_block` transaction. -/
def processTx (blockIndex : Nat) (db : DBState) (tx : Obj) : Option DBState :=
  if tx.get "type" == some "evidence_creation" then
    some { db with
      evidence := upsertEvidenceRow db.evidence (evidenceCreationRow tx blockIndex) }
  else if tx.get "type" == some "evidence_transfer" then
    let ev :=
      match tx.get "evidence_id" with
      | none => db.evidence
      | some eid =>
        db.evidence.map (fun r =>
          if r.evidence_id == some eid then applyTransferUpdate tx r else r)
    if transferInsertOk tx then
      some { db with evidence := ev,
                     transfers := db.transfers ++ [transferRowOf tx blockIndex] }
    else none
  else some db

/-- The transaction loop of `_process_block_transactions`: the first raised
`IntegrityError` (a `none` step) aborts the remaining processing. -/
def processTxs (blockIndex : Nat) : DBState → List Obj → Option DBState
  | db, [] => some db
  | db, tx :: rest =>
    match processTx blockIndex db tx with
    | none => none
    | some db2 => processTxs blockIndex db2 rest

/-- `BlockchainDatabase._process_block_transactions`: the genesis block (index 0)
is skipped, and only list payloads are processed (`isinstance(data, list)`). -/
def processBlockTransactions (db : DBState) (b : Block) : Option DBState :=
  if b.index = 0 then some db
  else
    match b.data with
    | BlockData.txList txs => processTxs b.index db txs
    | BlockData.obj _ => some db

/-- `save_block` up to the commit/rollback decision: the block-row upsert
followed by transaction processing; `none` models an exception raised on the
way (e.g. `IntegrityError` from the transfers `NOT NULL` columns). -/
def saveBlockResult (db : DBState) (b : Block) (node_id : String) : Option DBState :=
  let row : BlockRow :=
    ⟨b.index, b.timestamp, b.data, b.previous_hash, b.nonce, b.hash, node_id⟩
  processBlockTransactions { db with blocks := upsertBlockRow db.blocks row } b

/-- `BlockchainDatabase.save_block`: upsert the block row, process the block's
transactions into the derived tables, then commit. On any exception the whole
transaction — the block row included — is rolled back, the store is left
unchanged and `False` is returned, a value the callers ignore; the resulting
store state is therefore what matters. -/
def saveBlock (db : DBState) (b : Block) (node_id : String) : DBState :=
  (saveBlockResult db b node_id).getD db

/-- Insert a block row into a list sorted by `index_num` (ascending). -/
def insertByIndex (r : BlockRow) : List BlockRow → List BlockRow
  | [] => [r]
  | x :: xs => if r.index_num ≤ x.index_num then r :: x :: xs else x :: insertByIndex r xs

/-- Sort block rows by `index_num`, modelling `ORDER BY index_num`. -/
def sortByIndexNum (l : List BlockRow) : List BlockRow :=
  l.foldr insertByIndex []

/-- Projection of a stored block row back to the wire dictionary, as built by
`get_all_blocks`. -/
def blockRowToDict (r : BlockRow) : BlockDict :=
  ⟨r.index_num, r.timestamp, r.data, r.previous_hash, r.nonce, r.hash⟩

/-- `BlockchainDatabase.get_all_blocks`: all rows ordered by `index_num`. -/
def getAllBlocks (db : DBState) : List BlockDict :=
  (sortByIndexNum db.blocks).map blockRowToDict

/-- `Blockchain` state: the chain, the pending buffer, the node identifier and
the attached database (`use_database=True`). -/
structure Blockchain where
  chain : List Block
  pending_transactions : List Obj
  node_id : String
  db : DBState
deriving DecidableEq, Repr

/-- The dictionary returned by `Blockchain.add_transaction`:
`{"success": True, "block": ..., "transaction": ...}`. -/
structure SubmitResult where
  success : Bool
  block : Option BlockDict
  transaction : Obj
deriving DecidableEq, Repr

/-- The genesis marker payload built in `create_genesis_block`. -/
def genesisData (node_id : String) : Obj :=
  [("type", "genesis"), ("message", "ChainLedger Genesis Block"), ("node", node_id)]

/-- `Blockchain.create_genesis_block`: append the sentinel block
(`index=0`, `previous_hash="0"`) and persist it. -/
def createGenesisBlock (hashFn : BlockCore → String) (now : Nat) (bc : Blockchain) :
    Blockchain :=
  let g := mkBlock hashFn 0 now (BlockData.obj (genesisData bc.node_id)) "0" 0
  { bc with chain := bc.chain ++ [g], db := saveBlock bc.db g bc.node_id }

/-- A freshly constructed node (`Blockchain.__init__` against an empty store:
`load_from_database` finds no blocks and creates the genesis block). -/
def initialBlockchain (hashFn : BlockCore → String) (node_id : String) (now : Nat) :
    Blockchain :=
  createGenesisBlock hashFn now
    { chain := [], pending_transactions := [], node_id := node_id, db := DBState.empty }

/-- `Blockchain.create_block`: returns `None` (state unchanged) on an empty
pending buffer; otherwise seals the whole buffer into a new block linked to the
latest block, appends it, clears the buffer and persists the block. The return
value of `save_block` is ignored by the Python code; a failing write (modelled
by `saveFail`) rolls the database back but the in-memory append still happens.
`self.chain[-1]` raises on an empty chain, which is unreachable once the genesis
block exists; that case is modelled as returning `none` with the state unchanged. -/
def createBlock (hashFn : BlockCore → String) (now : Nat) (saveFail : Bool)
    (bc : Blockchain) : Blockchain × Option Block :=
  if bc.pending_transactions.isEmpty then (bc, none)
  else
    match bc.chain.getLast? with
    | none => (bc, none)
    | some latest =>
      let newBlock := mkBlock hashFn bc.chain.length now
        (BlockData.txList bc.pending_transactions) latest.hash 0
      let db2 := if saveFail then bc.db else saveBlock bc.db newBlock bc.node_id
      ({ bc with chain := bc.chain ++ [newBlock], pending_transactions := [], db := db2 },
       some newBlock)

/-- `Blockchain.add_transaction`: append the transaction to the pending buffer,
seal a block, and unconditionally report `success: True`. -/
def addTransaction (hashFn : BlockCore → String) (now : Nat) (saveFail : Bool)
    (bc : Blockchain) (tx : Obj) : Blockchain × SubmitResult :=
  let bc1 := { bc with pending_transactions := bc.pending_transactions ++ [tx] }
  let res := createBlock hashFn now saveFail bc1
  (res.1, { success := true, block := res.2.map Block.toDict, transaction := tx })

/-- The transaction dictionary built by `Blockchain.add_evidence`. -/
def creationTx (evidence_id description officer location evidence_type hashValue ts
    node : String) : Obj :=
  [("type", "evidence_creation"), ("evidence_id", evidence_id),
   ("description", description), ("officer", officer), ("location", location),
   ("evidence_type", evidence_type), ("hash", hashValue), ("action", "Created"),
   ("timestamp", ts), ("node", node)]

/-- The transaction dictionary built by `Blockchain.transfer_evidence`. -/
def transferTx (evidence_id from_officer to_officer reason ts node : String) : Obj :=
  [("type", "evidence_transfer"), ("evidence_id", evidence_id),
   ("from_officer", from_officer), ("to_officer", to_officer), ("reason", reason),
   ("action", "Transferred"), ("timestamp", ts), ("node", node)]

/-- `Blockchain.add_evidence`: builds a creation transaction (`hash_value or
generated-hash`, with the generated digest passed in as `genHash`) and submits it. -/
def addEvidence (hashFn : BlockCore → String) (now : Nat) (saveFail : Bool)
    (bc : Blockchain) (evidence_id description officer location evidence_type
    hash_value genHash ts : String) : Blockchain × SubmitResult :=
  addTransaction hashFn now saveFail bc
    (creationTx evidence_id description officer location evidence_type
      (if hash_value = "" then genHash else hash_value) ts bc.node_id)

/-- `Blockchain.transfer_evidence`: builds a transfer transaction and submits it. -/
def transferEvidence (hashFn : BlockCore → String) (now : Nat) (saveFail : Bool)
    (bc : Blockchain) (evidence_id from_officer to_officer reason ts : String) :
    Blockchain × SubmitResult :=
  addTransaction hashFn now saveFail bc
    (transferTx evidence_id from_officer to_officer reason ts bc.node_id)

/-- The dictionary produced by `Blockchain.to_dict` and consumed by `from_dict`. -/
structure ChainDict where
  node_id : String
  chain : List BlockDict
  pending_transactions : List Obj
deriving DecidableEq, Repr

/-- `Blockchain.to_dict`. -/
def Blockchain.toDict (bc : Blockchain) : ChainDict :=
  ⟨bc.node_id, bc.chain.map Block.toDict, bc.pending_transactions⟩

/-- `Blockchain.from_dict`: overwrites `node_id`, `chain` and
`pending_transactions` with the values from the dictionary; the database
attribute is untouched. -/
def Blockchain.fromDict (hashFn : BlockCore → String) (bc : Blockchain)
    (d : ChainDict) : Blockchain :=
  { bc with node_id := d.node_id,
            chain := d.chain.map (Block.fromDict hashFn),
            pending_transactions := d.pending_transactions }

/-- `Blockchain.load_from_database`: rebuild the chain from the stored blocks,
creating the genesis block instead when the store is empty. -/
def loadFromDatabase (hashFn : BlockCore → String) (now : Nat) (bc : Blockchain) :
    Blockchain :=
  let blocks := getAllBlocks bc.db
  if blocks.isEmpty then createGenesisBlock hashFn now bc
  else { bc with chain := blocks.map (Block.fromDict hashFn) }

/-- The body of the `/chain` route: `{"length": ..., "chain": to_dict()}`. -/
structure ChainResponse where
  length : Nat
  chain : ChainDict
deriving DecidableEq, Repr

/-- The `/chain` route (`get_chain` in `src/network.py`). -/
def getChainResponse (bc : Blockchain) : ChainResponse :=
  ⟨bc.chain.length, bc.toDict⟩

/-- The message returned by the `/sync` route. -/
inductive SyncMsg where
  | synchronized (new_length : Nat)
  | upToDate
deriving DecidableEq, Repr

/-- The peer loop of `sync_chain`: each element of the list is one peer's fetch
result (`none` models a request exception or non-200 status, which is logged and
skipped). A fetched chain is recorded only when its reported length strictly
exceeds the running maximum, which starts at the local length. -/
def syncLoop : List (Option ChainResponse) → Nat → Option ChainDict →
    Nat × Option ChainDict
  | [], maxLen, longest => (maxLen, longest)
  | none :: rest, maxLen, longest => syncLoop rest maxLen longest
  | some r :: rest, maxLen, longest =>
    if maxLen < r.length then syncLoop rest r.length (some r.chain)
    else syncLoop rest maxLen longest

/-- The `/sync` route (`sync_chain` in `src/network.py`): after the peer loop,
adopt the recorded chain through `Blockchain.from_dict` when one exists. -/
def syncChain (hashFn : BlockCore → String) (bc : Blockchain)
    (responses : List (Option ChainResponse)) : Blockchain × SyncMsg :=
  let res := syncLoop responses bc.chain.length none
  match res.2 with
  | some c => (bc.fromDict hashFn c, SyncMsg.synchronized res.1)
  | none => (bc, SyncMsg.upToDate)

/-- The `/transaction/receive` route: the received transaction is appended to
the pending buffer and sealed immediately, with no validation of its fields. -/
def receiveTransaction (hashFn : BlockCore → String) (now : Nat) (saveFail : Bool)
    (bc : Blockchain) (tx : Obj) : Blockchain :=
  let bc1 := { bc with pending_transactions := bc.pending_transactions ++ [tx] }
  (createBlock hashFn now saveFail bc1).1

/-- The `/evidence` route (`add_evidence` in `src/network.py`): the handler reads
`data['evidence_id']`, `data['description']`, `data['officer']`,
`data['location']`, `data['evidence_type']` before calling the ledger; a missing
key raises `KeyError`, aborting the request with no block sealed. `data.get
('hash', '')` supplies the optional content hash. -/
def addEvidenceRoute (hashFn : BlockCore → String) (now : Nat) (saveFail : Bool)
    (bc : Blockchain) (genHash ts : String) (data : Obj) :
    Except String (Blockchain × SubmitResult) :=
  match data.get "evidence_id", data.get "description", data.get "officer",
        data.get "location", data.get "evidence_type" with
  | some eid, some desc, some off, some loc, some ty =>
    Except.ok (addEvidence hashFn now saveFail bc eid desc off loc ty
      ((data.get "hash").getD "") genHash ts)
  | _, _, _, _, _ => Except.error "KeyError"

/-- A row of the dictionary built by the chain-scan fallback of
`Blockchain.get_all_evidence`. -/
structure ScanRow where
  evidence_id : String
  description : String
  etype : String
  current_officer : Option String
  created : Option String
  last_action : Option String
  block_index : Nat
deriving DecidableEq, Repr

/-- One iteration of the transaction loop in the chain-scan fallback of
`get_all_evidence`: a transaction with a truthy `evidence_id` inserts a fresh
row (keeping the first creation's data) or, when the id is already present and
the transaction is a transfer, updates the custodian and last action. -/
def scanTx (d : List ScanRow) (blockIndex : Nat) (tx : Obj) : List ScanRow :=
  match tx.get "evidence_id" with
  | none => d
  | some eid =>
    if eid = "" then d
    else if d.any (fun r => r.evidence_id == eid) then
      if tx.get "type" == some "evidence_transfer" then
        d.map (fun r =>
          if r.evidence_id == eid then
            { r with current_officer := tx.get "to_officer",
                     last_action := tx.get "action" }
          else r)
      else d
    else
      d ++ [{ evidence_id := eid,
              description := (tx.get "description").getD "N/A",
              etype := (tx.get "evidence_type").getD "N/A",
              current_officer := pyOr (tx.get "officer") (tx.get "to_officer"),
              created := tx.get "timestamp",
              last_action := tx.get "action",
              block_index := blockIndex }]

/-- Scan one block: only list payloads contribute (`isinstance(block.data, list)`). -/
def scanBlockStep (d : List ScanRow) (b : Block) : List ScanRow :=
  match b.data with
  | BlockData.txList txs => txs.foldl (fun acc tx => scanTx acc b.index tx) d
  | BlockData.obj _ => d

/-- The chain-scan fallback of `Blockchain.get_all_evidence`: fold over
`chain[1:]`, returning the accumulated rows in insertion order. -/
def getAllEvidenceScan (chain : List Block) : List ScanRow :=
  (chain.drop 1).foldl scanBlockStep []

/-- The per-item facts named by the projection-agreement claim — existence,
current custodian, last action — read from the chain scan. -/
def scanFacts (chain : List Block) (eid : String) :
    Option (Option String × Option String) :=
  ((getAllEvidenceScan chain).find? (fun r => r.evidence_id == eid)).map
    (fun r => (r.current_officer, r.last_action))

/-- The same per-item facts read from the database's `evidence` table, the
read path used by `get_all_evidence` when a database is attached (row order,
`ORDER BY created_at DESC`, does not affect per-item facts since `evidence_id`
is the primary key). -/
def dbFacts (db : DBState) (eid : String) :
    Option (Option String × Option String) :=
  (db.evidence.find? (fun r => r.evidence_id == some eid)).map
    (fun r => (r.current_officer, r.last_action))

/-- A concrete digest function used to instantiate `hashFn` in closed examples;
the theorems themselves hold for every digest function. -/
def hashFn0 (c : BlockCore) : String :=
  "h" ++ toString c.index ++ "." ++ c.previous_hash

/-- The chain-mutating operations a node can perform: a local submission
(`add_transaction`), an inbound broadcast (`/transaction/receive`), or a
reconciliation (`/sync`) against a list of peer fetch results. -/
inductive NodeOp where
  | submit (tx : Obj) (now : Nat) (saveFail : Bool)
  | receive (tx : Obj) (now : Nat) (saveFail : Bool)
  | sync (responses : List (Option ChainResponse))

/-- Apply one operation to the node state. -/
def applyNodeOp (hashFn : BlockCore → String) (bc : Blockchain) : NodeOp → Blockchain
  | NodeOp.submit tx now f => (addTransaction hashFn now f bc tx).1
  | NodeOp.receive tx now f => receiveTransaction hashFn now f bc tx
  | NodeOp.sync rs => (syncChain hashFn bc rs).1

/-- Run a node from a fresh state through a sequence of operations. -/
def runNode (hashFn : BlockCore → String) (node_id : String) (now0 : Nat)
    (ops : List NodeOp) : Blockchain :=
  ops.foldl (applyNodeOp hashFn) (initialBlockchain hashFn node_id now0)

/-- Whether an operation is a local ledger mutation (submit or receive), as
opposed to a reconciliation. -/
def NodeOp.isLocal : NodeOp → Bool
  | NodeOp.sync _ => false
  | _ => true

/-- The transfer-log rows that one successful application of `save_block`
appends for a block: one row per `evidence_transfer` transaction whose `NOT
NULL` columns are all bound (none for the genesis index, which
`_process_block_transactions` skips). When some transfer violates a constraint
the whole save rolls back and the block contributes no rows at all. -/
def transferRowsOf (b : Block) : List TransferRow :=
  if b.index = 0 then []
  else
    match b.data with
    | BlockData.txList txs =>
      txs.filterMap (fun tx =>
        if tx.get "type" == some "evidence_transfer" && transferInsertOk tx then
          some (transferRowOf tx b.index)
        else none)
    | BlockData.obj _ => []

/-- Running maximum of the reported lengths over a list of fetch results,
starting from the local length (the accumulator of the `sync_chain` loop). -/
def fetchedMax (rs : List (Option ChainResponse)) (m : Nat) : Nat :=
  rs.foldl (fun acc r => match r with | some q => max acc q.length | none => acc) m

/-- Validity invariant maintained by the ledger's own operations: the chain
passes `is_chain_valid` and is nonempty (the genesis block exists). -/
def chainInv (hashFn : BlockCore → String) (bc : Blockchain) : Prop :=
  isChainValid hashFn bc.chain = true ∧ bc.chain ≠ []

/-- The block preceding position `j` when scanning `l` with predecessor `prev`:
`prev` for `j = 0`, otherwise the element of `l` before `j`. -/
def prevAt (prev : Block) (l : List Block) (j : Fin l.length) : Block :=
  (prev :: l).get ⟨j.val, Nat.lt_succ_of_lt j.isLt⟩

/-- The spec's wording of a validation failure ("for some index i with
1 <= i < chain length, either block i's stored hash differs from the recomputed
digest, or block i's previous_hash differs from block i-1's stored hash"). -/
def specInvalid (hashFn : BlockCore → String) (chain : List Block) : Prop :=
  ∃ i : Fin chain.length, 1 ≤ i.val ∧
    ((chain.get i).hash ≠ hashFn (chain.get i).core ∨
     (chain.get i).previous_hash ≠
       (chain.get ⟨i.val - 1, Nat.lt_of_le_of_lt (Nat.sub_le i.val 1) i.isLt⟩).hash)

/-- The custody-event API calls (`add_evidence` / `transfer_evidence`), each
carrying its caller-supplied strings and the wall-clock values; one such call is
also what a received broadcast of a well-formed transaction amounts to, since
`/transaction/receive` appends the same dictionary and seals it identically. -/
inductive EvOp where
  | create (evidence_id description officer location evidence_type hash_value
      genHash ts : String) (now : Nat)
  | transfer (evidence_id from_officer to_officer reason ts : String) (now : Nat)

/-- Apply one custody-event call (successful store write). -/
def applyEvOp (hashFn : BlockCore → String) (bc : Blockchain) : EvOp → Blockchain
  | EvOp.create eid d off loc ty hv gh ts now =>
    (addEvidence hashFn now false bc eid d off loc ty hv gh ts).1
  | EvOp.transfer eid fo toOff r ts now =>
    (transferEvidence hashFn now false bc eid fo toOff r ts).1

/-- Side conditions for an event to be well-formed against the current state:
a creation carries a nonempty item id not yet in the projection and a nonempty
officer; a transfer carries a nonempty item id already in the projection. -/
def goodEvOp (bc : Blockchain) : EvOp → Bool
  | EvOp.create eid _ off _ _ _ _ _ _ =>
    eid != "" && off != "" && bc.db.evidence.all (fun r => r.evidence_id != some eid)
  | EvOp.transfer eid _ _ _ _ _ =>
    eid != "" && bc.db.evidence.any (fun r => r.evidence_id == some eid)

/-- A whole call sequence is well-formed when each call is well-formed in the
state reached by its predecessors. -/
def goodTrace (hashFn : BlockCore → String) (bc : Blockchain) : List EvOp → Bool
  | [] => true
  | op :: rest => goodEvOp bc op && goodTrace hashFn (applyEvOp hashFn bc op) rest

/-- Run a node from a fresh state through a sequence of custody-event calls. -/
def runEvOps (hashFn : BlockCore → String) (node_id : String) (now0 : Nat)
    (ops : List EvOp) : Blockchain :=
  ops.foldl (applyEvOp hashFn) (initialBlockchain hashFn node_id now0)

/-- The per-item facts of an `evidence` table row named by the claim. -/
def evTriple (r : EvidenceRow) : Option String × Option String × Option String :=
  (r.evidence_id, r.current_officer, r.last_action)

/-- The per-item facts of a chain-scan row named by the claim. -/
def scanTriple (s : ScanRow) : Option String × Option String × Option String :=
  (some s.evidence_id, s.current_officer, s.last_action)

/-- Projection agreement: the `evidence` table and the chain scan list the same
items, in the same order, with the same custodian and last action. -/
def projAgrees (bc : Blockchain) : Prop :=
  bc.db.evidence.map evTriple = (getAllEvidenceScan bc.chain).map scanTriple

/-- Node-state invariant for the projection-agreement argument. -/
def nodeInv (bc : Blockchain) : Prop :=
  bc.pending_transactions = [] ∧ bc.chain ≠ [] ∧ projAgrees bc

/-! ### General helper lemmas -/

@[simp] lemma creationTx_get_type (a b c d e f g h : String) :
    Obj.get (creationTx a b c d e f g h) "type" = some "evidence_creation" := rfl

@[simp] lemma creationTx_get_evidence_id (a b c d e f g h : String) :
    Obj.get (creationTx a b c d e f g h) "evidence_id" = some a := rfl

@[simp] lemma creationTx_get_description (a b c d e f g h : String) :
    Obj.get (creationTx a b c d e f g h) "description" = some b := rfl

@[simp] lemma creationTx_get_officer (a b c d e f g h : String) :
    Obj.get (creationTx a b c d e f g h) "officer" = some c := rfl

@[simp] lemma creationTx_get_location (a b c d e f g h : String) :
    Obj.get (creationTx a b c d e f g h) "location" = some d := rfl

@[simp] lemma creationTx_get_evidence_type (a b c d e f g h : String) :
    Obj.get (creationTx a b c d e f g h) "evidence_type" = some e := rfl

@[simp] lemma creationTx_get_action (a b c d e f g h : String) :
    Obj.get (creationTx a b c d e f g h) "action" = some "Created" := rfl

@[simp] lemma creationTx_get_timestamp (a b c d e f g h : String) :
    Obj.get (creationTx a b c d e f g h) "timestamp" = some g := rfl

@[simp] lemma creationTx_get_to_officer (a b c d e f g h : String) :
    Obj.get (creationTx a b c d e f g h) "to_officer" = none := rfl

@[simp] lemma transferTx_get_type (a b c d e f : String) :
    Obj.get (transferTx a b c d e f) "type" = some "evidence_transfer" := rfl

@[simp] lemma transferTx_get_evidence_id (a b c d e f : String) :
    Obj.get (transferTx a b c d e f) "evidence_id" = some a := rfl

@[simp] lemma transferTx_get_from_officer (a b c d e f : String) :
    Obj.get (transferTx a b c d e f) "from_officer" = some b := rfl

@[simp] lemma transferTx_get_to_officer (a b c d e f : String) :
    Obj.get (transferTx a b c d e f) "to_officer" = some c := rfl

@[simp] lemma transferTx_get_reason (a b c d e f : String) :
    Obj.get (transferTx a b c d e f) "reason" = some d := rfl

@[simp] lemma transferTx_get_action (a b c d e f : String) :
    Obj.get (transferTx a b c d e f) "action" = some "Transferred" := rfl

@[simp] lemma transferTx_get_timestamp (a b c d e f : String) :
    Obj.get (transferTx a b c d e f) "timestamp" = some e := rfl

@[simp] lemma transferTx_get_officer (a b c d e f : String) :
    Obj.get (transferTx a b c d e f) "officer" = none := rfl

lemma getLast?_eq_getLastD {α : Type _} : ∀ (x : α) (t : List α),
    (x :: t).getLast? = some (t.getLastD x) := by
  intro x t
  induction t generalizing x with
  | nil => rfl
  | cons y t2 ih => rw [List.getLastD_cons]; exact ih y

lemma option_beq_some (a b : String) : (some a == some b) = (a == b) := rfl

lemma upsertBlockRow_idem (l : List BlockRow) (r : BlockRow) :
    upsertBlockRow (upsertBlockRow l r) r = upsertBlockRow l r := by
  induction l with
  | nil => simp [upsertBlockRow]
  | cons x xs ih =>
    by_cases h : (x.index_num == r.index_num) = true
    · simp [upsertBlockRow, h]
    · simp only [upsertBlockRow, h]
      simp [h, ih]

lemma sqlKeyEq_some_self (k : String) : sqlKeyEq (some k) (some k) = true := by
  simp [sqlKeyEq]

lemma sqlKeyEq_none_right (a : Option String) : sqlKeyEq a none = false := by
  cases a <;> rfl

lemma sqlKeyEq_eq_false_of_ne (a b : Option String) (h : a ≠ b) :
    sqlKeyEq a b = false := by
  cases a with
  | none => rfl
  | some x =>
    cases b with
    | none => rfl
    | some y =>
      show (x == y) = false
      exact beq_eq_false_iff_ne.mpr fun hxy => h (congrArg some hxy)

lemma filter_self_idem {α : Type _} (p : α → Bool) (l : List α) :
    (l.filter p).filter p = l.filter p := by
  induction l with
  | nil => rfl
  | cons x xs ih =>
    by_cases h : p x = true
    · simp [List.filter_cons, h, ih]
    · simp [List.filter_cons, h, ih]

lemma upsertEvidenceRow_idem (l : List EvidenceRow) (r : EvidenceRow) (k : String)
    (hk : r.evidence_id = some k) :
    upsertEvidenceRow (upsertEvidenceRow l r) r = upsertEvidenceRow l r := by
  unfold upsertEvidenceRow
  rw [List.filter_append]
  have hr : (!(sqlKeyEq r.evidence_id r.evidence_id)) = false := by
    rw [hk, sqlKeyEq_some_self]; rfl
  simp [List.filter_cons, hr, filter_self_idem]

lemma upsertEvidenceRow_none (l : List EvidenceRow) (r : EvidenceRow)
    (hk : r.evidence_id = none) :
    upsertEvidenceRow l r = l ++ [r] := by
  unfold upsertEvidenceRow
  congr 1
  induction l with
  | nil => rfl
  | cons x xs ih => simp [List.filter_cons, hk, sqlKeyEq_none_right, ih]

lemma applyTransferUpdate_evidence_id (tx : Obj) (r : EvidenceRow) :
    (applyTransferUpdate tx r).evidence_id = r.evidence_id := rfl

lemma applyTransferUpdate_idem (tx : Obj) (r : EvidenceRow) :
    applyTransferUpdate tx (applyTransferUpdate tx r) = applyTransferUpdate tx r := rfl

lemma map_transferUpd_idem (tx : Obj) (eid : String) (l : List EvidenceRow) :
    ((l.map fun r => if r.evidence_id == some eid then applyTransferUpdate tx r else r).map
        fun r => if r.evidence_id == some eid then applyTransferUpdate tx r else r)
      = l.map fun r => if r.evidence_id == some eid then applyTransferUpdate tx r else r := by
  induction l with
  | nil => rfl
  | cons r rest ih =>
    simp only [List.map_cons, ih]
    congr 1
    by_cases hr : (r.evidence_id == some eid) = true
    · rw [if_pos hr, if_pos, applyTransferUpdate_idem]
      rw [applyTransferUpdate_evidence_id]
      exact hr
    · rw [if_neg hr, if_neg hr]

lemma processTx_some_blocks (i : Nat) (db : DBState) (tx : Obj) (db2 : DBState)
    (h : processTx i db tx = some db2) : db2.blocks = db.blocks := by
  unfold processTx at h
  by_cases h1 : (tx.get "type" == some "evidence_creation") = true
  · simp [h1] at h
    rw [← h]
  · by_cases h2 : (tx.get "type" == some "evidence_transfer") = true
    · simp only [h1, h2, Bool.false_eq_true, if_false, if_true] at h
      by_cases h3 : transferInsertOk tx = true
      · simp [h3] at h
        rw [← h]
      · simp [h3] at h
    · simp [h1, h2] at h
      rw [← h]

/-! ### Claim C5 — replace_chain and the node identifier -/

/-- C5 counterexample: node `node_A` reconciles against a peer `node_B` whose
chain is longer; after adoption the local `node_id` is no longer `node_A` —
`Blockchain.from_dict` overwrote it with the peer's identifier. -/
theorem c5_counterexample :
    (syncChain hashFn0 (initialBlockchain hashFn0 "node_A" 0)
        [some (getChainResponse ((addEvidence hashFn0 1 false
          (initialBlockchain hashFn0 "node_B" 0)
          "EV-9" "d" "B" "l" "P" "hh" "g" "t").1))]).1.node_id
      ≠ (initialBlockchain hashFn0 "node_A" 0).node_id := by decide

/-- C5 amended: the wholesale replacement used by reconciliation
(`Blockchain.from_dict`) overwrites the chain, the pending buffer and also the
node's identifier with the peer dump's values; only the attached database state
is left unchanged. -/
theorem c5_fromDict_overwrites_node_id (hashFn : BlockCore → String)
    (bc : Blockchain) (d : ChainDict) :
    (bc.fromDict hashFn d).node_id = d.node_id ∧
    (bc.fromDict hashFn d).chain = d.chain.map (Block.fromDict hashFn) ∧
    (bc.fromDict hashFn d).pending_transactions = d.pending_transactions ∧
    (bc.fromDict hashFn d).db = bc.db :=
  ⟨rfl, rfl, rfl, rfl⟩

/-! ### Claim C2 — storage failure during submission -/

/-- C2 counterexample: with a failing block write, `add_transaction` still
reports `success: True` and the in-memory chain has grown by one block, contrary
to "reported as failed and the Chain left unchanged". -/
theorem c2_counterexample :
    ((addTransaction hashFn0 1 true (initialBlockchain hashFn0 "node1" 0)
        (creationTx "EV-1" "knife" "A" "scene" "Physical" "h1" "t1" "node1")).2.success
        = true) ∧
    (addTransaction hashFn0 1 true (initialBlockchain hashFn0 "node1" 0)
        (creationTx "EV-1" "knife" "A" "scene" "Physical" "h1" "t1" "node1")).1.chain
      ≠ (initialBlockchain hashFn0 "node1" 0).chain := by decide

/-- C2 amended: when the persistent store's block write fails, `save_block`
rolls the store back (database unchanged), but `create_block` ignores the
returned failure flag: the new block remains appended to the in-memory chain and
`add_transaction` still reports the submission as successful. -/
theorem c2_failed_write_keeps_block (hashFn : BlockCore → String) (now : Nat)
    (bc : Blockchain) (tx : Obj) (hne : bc.chain ≠ []) :
    (addTransaction hashFn now true bc tx).2.success = true ∧
    (addTransaction hashFn now true bc tx).1.db = bc.db ∧
    (addTransaction hashFn now true bc tx).1.chain.length = bc.chain.length + 1 := by
  rcases List.eq_nil_or_concat bc.chain with hc | ⟨l, a, hc⟩
  · exact absurd hc hne
  · unfold addTransaction createBlock
    have hp : (bc.pending_transactions ++ [tx]).isEmpty = false := by
      cases bc.pending_transactions <;> rfl
    simp [hp, hc, List.getLast?_concat]

/-- C2 witness: the amended statement applied at a concrete fresh node. -/
theorem c2_failed_write_keeps_block_witness :
    (addTransaction hashFn0 1 true (initialBlockchain hashFn0 "node1" 0)
        (creationTx "EV-1" "knife" "A" "scene" "Physical" "h1" "t1" "node1")).2.success
        = true ∧
    (addTransaction hashFn0 1 true (initialBlockchain hashFn0 "node1" 0)
        (creationTx "EV-1" "knife" "A" "scene" "Physical" "h1" "t1" "node1")).1.db
      = (initialBlockchain hashFn0 "node1" 0).db ∧
    (addTransaction hashFn0 1 true (initialBlockchain hashFn0 "node1" 0)
        (creationTx "EV-1" "knife" "A" "scene" "Physical" "h1" "t1" "node1")).1.chain.length
      = (initialBlockchain hashFn0 "node1" 0).chain.length + 1 :=
  c2_failed_write_keeps_block hashFn0 1 (initialBlockchain hashFn0 "node1" 0)
    (creationTx "EV-1" "knife" "A" "scene" "Physical" "h1" "t1" "node1") (by decide)

/-! ### Claim C3 — idempotence of save_block -/

/-- C3 counterexample: saving the same transfer-carrying block twice does not
leave the store in the same state as saving it once — the plain `INSERT INTO
transfers` (AUTOINCREMENT id) duplicates the transfer-log row. -/
theorem c3_counterexample :
    saveBlock (saveBlock
        (⟨[], [⟨some "EV-1", some "d", some "P", some "A", some "l", some "A",
                some "t0", some "Created", none, 1⟩], []⟩ : DBState)
        (⟨2, 5, BlockData.txList [transferTx "EV-1" "A" "B" "lab" "t2" "n"],
          "ph", 0, "hh"⟩ : Block) "n")
      (⟨2, 5, BlockData.txList [transferTx "EV-1" "A" "B" "lab" "t2" "n"],
        "ph", 0, "hh"⟩ : Block) "n"
    ≠ saveBlock
        (⟨[], [⟨some "EV-1", some "d", some "P", some "A", some "l", some "A",
                some "t0", some "Created", none, 1⟩], []⟩ : DBState)
        (⟨2, 5, BlockData.txList [transferTx "EV-1" "A" "B" "lab" "t2" "n"],
          "ph", 0, "hh"⟩ : Block) "n" := by decide

/-- C3 amended: re-saving a block (same index) is an overwrite on the `blocks`
table, and on the `evidence` projection exactly for the transactions the
Ledger's own API seals — but never on the transfer log, and not at all for
malformed transactions. Concretely, for single-transaction blocks:
(1) re-saving a block holding an `add_evidence` creation leaves the store
exactly unchanged; (2) re-saving a block holding a `transfer_evidence` transfer
is an overwrite on `blocks` and `evidence`, but each re-application appends the
block's transfer-log row again — the plain `INSERT INTO transfers` with an
AUTOINCREMENT id duplicates it; (3) a transfer missing one of the transfer
table's `NOT NULL` columns makes every save roll back wholesale
(`IntegrityError`), leaving the store untouched; (4) a creation bound with a
`NULL` `evidence_id` is duplicated, not replaced, by every re-save, because
SQLite `NULL` primary keys never conflict. -/
theorem c3_resave_block (db : DBState) (nid : String) (i t n : Nat)
    (ph hsh : String) :
    (∀ a b c d e f g h : String,
      saveBlock (saveBlock db
          (⟨i, t, BlockData.txList [creationTx a b c d e f g h], ph, n, hsh⟩ : Block) nid)
        (⟨i, t, BlockData.txList [creationTx a b c d e f g h], ph, n, hsh⟩ : Block) nid
      = saveBlock db
          (⟨i, t, BlockData.txList [creationTx a b c d e f g h], ph, n, hsh⟩ : Block) nid) ∧
    (∀ a b c d e f : String,
      (saveBlock (saveBlock db
          (⟨i, t, BlockData.txList [transferTx a b c d e f], ph, n, hsh⟩ : Block) nid)
        (⟨i, t, BlockData.txList [transferTx a b c d e f], ph, n, hsh⟩ : Block) nid).blocks
        = (saveBlock db
            (⟨i, t, BlockData.txList [transferTx a b c d e f], ph, n, hsh⟩ : Block) nid).blocks ∧
      (saveBlock (saveBlock db
          (⟨i, t, BlockData.txList [transferTx a b c d e f], ph, n, hsh⟩ : Block) nid)
        (⟨i, t, BlockData.txList [transferTx a b c d e f], ph, n, hsh⟩ : Block) nid).evidence
        = (saveBlock db
            (⟨i, t, BlockData.txList [transferTx a b c d e f], ph, n, hsh⟩ : Block) nid).evidence ∧
      (saveBlock (saveBlock db
          (⟨i, t, BlockData.txList [transferTx a b c d e f], ph, n, hsh⟩ : Block) nid)
        (⟨i, t, BlockData.txList [transferTx a b c d e f], ph, n, hsh⟩ : Block) nid).transfers
        = (saveBlock db
            (⟨i, t, BlockData.txList [transferTx a b c d e f], ph, n, hsh⟩ : Block) nid).transfers
          ++ transferRowsOf
            (⟨i, t, BlockData.txList [transferTx a b c d e f], ph, n, hsh⟩ : Block)) ∧
    (∀ eid toOff : String,
      saveBlock db
        (⟨i + 1, t, BlockData.txList
          [[("type", "evidence_transfer"), ("evidence_id", eid), ("to_officer", toOff)]],
          ph, n, hsh⟩ : Block) nid = db) ∧
    (∀ d2 o2 l2 e2 f2 g2 h2 : String,
      (saveBlock (saveBlock db
          (⟨i + 1, t, BlockData.txList
            [[("type", "evidence_creation"), ("description", d2), ("officer", o2),
              ("location", l2), ("evidence_type", e2), ("hash", f2),
              ("action", "Created"), ("timestamp", g2), ("node", h2)]],
            ph, n, hsh⟩ : Block) nid)
        (⟨i + 1, t, BlockData.txList
          [[("type", "evidence_creation"), ("description", d2), ("officer", o2),
            ("location", l2), ("evidence_type", e2), ("hash", f2),
            ("action", "Created"), ("timestamp", g2), ("node", h2)]],
          ph, n, hsh⟩ : Block) nid).evidence
        = (saveBlock db
            (⟨i + 1, t, BlockData.txList
              [[("type", "evidence_creation"), ("description", d2), ("officer", o2),
                ("location", l2), ("evidence_type", e2), ("hash", f2),
                ("action", "Created"), ("timestamp", g2), ("node", h2)]],
              ph, n, hsh⟩ : Block) nid).evidence
          ++ [evidenceCreationRow
              [("type", "evidence_creation"), ("description", d2), ("officer", o2),
               ("location", l2), ("evidence_type", e2), ("hash", f2),
               ("action", "Created"), ("timestamp", g2), ("node", h2)] (i + 1)]) := by
  refine ⟨?_, ?_, ?_, ?_⟩
  · intro a b c d e f g h
    by_cases hi : i = 0
    · subst hi
      simp [saveBlock, saveBlockResult, processBlockTransactions, upsertBlockRow_idem]
    · have hk : (evidenceCreationRow (creationTx a b c d e f g h) i).evidence_id
          = some a := rfl
      simp [saveBlock, saveBlockResult, processBlockTransactions, processTxs,
        processTx, hi, upsertBlockRow_idem, upsertEvidenceRow_idem _ _ a hk]
  · intro a b c d e f
    by_cases hi : i = 0
    · subst hi
      simp [saveBlock, saveBlockResult, processBlockTransactions, transferRowsOf,
        upsertBlockRow_idem]
    · simp [saveBlock, saveBlockResult, processBlockTransactions, processTxs,
        processTx, transferRowsOf, transferInsertOk, hi, upsertBlockRow_idem]
      intro r _ hr
      by_cases hx : r.evidence_id = some a
      · rw [if_pos hx, applyTransferUpdate_idem]
      · rw [if_neg hx] at hr ⊢
        exact absurd hr hx
  · intro eid toOff
    rfl
  · intro d2 o2 l2 e2 f2 g2 h2
    have hty : Obj.get [("type", "evidence_creation"), ("description", d2),
        ("officer", o2), ("location", l2), ("evidence_type", e2), ("hash", f2),
        ("action", "Created"), ("timestamp", g2), ("node", h2)] "type"
        = some "evidence_creation" := rfl
    have hk : (evidenceCreationRow
        [("type", "evidence_creation"), ("description", d2), ("officer", o2),
         ("location", l2), ("evidence_type", e2), ("hash", f2),
         ("action", "Created"), ("timestamp", g2), ("node", h2)] (i + 1)).evidence_id
        = none := rfl
    simp [saveBlock, saveBlockResult, processBlockTransactions, processTxs,
      processTx, hty, upsertEvidenceRow_none _ _ hk]

/-! ### Claim C10 — the genesis block is never digest-checked -/

lemma isChainValidFrom_hash_only (hashFn : BlockCore → String) (l : List Block)
    (p q : Block) (h : p.hash = q.hash) :
    isChainValidFrom hashFn p l = isChainValidFrom hashFn q l := by
  cases l with
  | nil => rfl
  | cons cur rest => simp [isChainValidFrom, h]

/-- C10: a chain of length at most 1 is always reported valid — the validation
loop starts at index 1, so the genesis block's stored hash is never compared
against its recomputed digest; and for longer chains the block at index 0
influences validation only through its stored `hash` field (via block 1's
`previous_hash` link), never through its other content. -/
theorem c10_genesis_unchecked (hashFn : BlockCore → String) :
    (∀ chain : List Block, chain.length ≤ 1 → isChainValid hashFn chain = true) ∧
    (∀ (b0 b1 : Block) (rest : List Block), b0.hash = b1.hash →
      isChainValid hashFn (b0 :: rest) = isChainValid hashFn (b1 :: rest)) := by
  constructor
  · intro chain hlen
    match chain with
    | [] => rfl
    | [b] => rfl
    | a :: b :: t => simp at hlen
  · intro b0 b1 rest h
    show isChainValidFrom hashFn b0 rest = isChainValidFrom hashFn b1 rest
    exact isChainValidFrom_hash_only hashFn rest b0 b1 h

/-- C10 witness: a length-1 chain with an arbitrary (wrong) stored hash is
valid, and two genesis blocks differing in every content field but sharing a
stored hash validate identically. -/
theorem c10_genesis_unchecked_witness :
    isChainValid hashFn0 [(⟨0, 0, BlockData.obj [], "0", 0, "totally-wrong"⟩ : Block)]
      = true ∧
    isChainValid hashFn0
        ((⟨0, 0, BlockData.obj [], "0", 0, "H"⟩ : Block)
          :: [(⟨1, 1, BlockData.txList [], "H", 0, "h1.H"⟩ : Block)])
      = isChainValid hashFn0
        ((⟨0, 99, BlockData.txList [[("x", "y")]], "zz", 7, "H"⟩ : Block)
          :: [(⟨1, 1, BlockData.txList [], "H", 0, "h1.H"⟩ : Block)]) :=
  ⟨(c10_genesis_unchecked hashFn0).1 _ (by decide),
   (c10_genesis_unchecked hashFn0).2 _ _ _ (by decide)⟩

/-! ### Claim C4 — reconciliation adopts by strict length only -/

@[simp] lemma fetchedMax_nil (m : Nat) : fetchedMax [] m = m := rfl

@[simp] lemma fetchedMax_cons_none (rest : List (Option ChainResponse)) (m : Nat) :
    fetchedMax (none :: rest) m = fetchedMax rest m := rfl

@[simp] lemma fetchedMax_cons_some (q : ChainResponse)
    (rest : List (Option ChainResponse)) (m : Nat) :
    fetchedMax (some q :: rest) m = fetchedMax rest (max m q.length) := rfl

lemma le_fetchedMax : ∀ (rs : List (Option ChainResponse)) (m : Nat),
    m ≤ fetchedMax rs m := by
  intro rs
  induction rs with
  | nil => intro m; simp
  | cons r rest ih =>
    intro m
    cases r with
    | none => simpa using ih m
    | some q =>
      calc m ≤ max m q.length := Nat.le_max_left _ _
        _ ≤ fetchedMax rest (max m q.length) := ih _
        _ = fetchedMax (some q :: rest) m := rfl

lemma fetchedMax_ub : ∀ (rs : List (Option ChainResponse)) (m : Nat)
    (q : ChainResponse), some q ∈ rs → q.length ≤ fetchedMax rs m := by
  intro rs
  induction rs with
  | nil => intro m q hq; simp at hq
  | cons r rest ih =>
    intro m q hq
    rcases List.mem_cons.mp hq with heq | htl
    · subst heq
      calc q.length ≤ max m q.length := Nat.le_max_right _ _
        _ ≤ fetchedMax rest (max m q.length) := le_fetchedMax _ _
        _ = fetchedMax (some q :: rest) m := rfl
    · cases r with
      | none => simpa using ih m q htl
      | some p => simpa using ih (max m p.length) q htl

lemma syncLoop_fst : ∀ (rs : List (Option ChainResponse)) (m : Nat)
    (l : Option ChainDict), (syncLoop rs m l).1 = fetchedMax rs m := by
  intro rs
  induction rs with
  | nil => intro m l; rfl
  | cons r rest ih =>
    intro m l
    cases r with
    | none => simpa [syncLoop] using ih m l
    | some q =>
      by_cases h : m < q.length
      · rw [show syncLoop (some q :: rest) m l = syncLoop rest q.length (some q.chain) by
          simp [syncLoop, h]]
        rw [ih, fetchedMax_cons_some, Nat.max_eq_right (Nat.le_of_lt h)]
      · rw [show syncLoop (some q :: rest) m l = syncLoop rest m l by simp [syncLoop, h]]
        rw [ih, fetchedMax_cons_some, Nat.max_eq_left (Nat.le_of_not_lt h)]

lemma syncLoop_stay : ∀ (rs : List (Option ChainResponse)) (m : Nat)
    (l : Option ChainDict), (∀ r, some r ∈ rs → r.length ≤ m) →
    syncLoop rs m l = (m, l) := by
  intro rs
  induction rs with
  | nil => intro m l _; rfl
  | cons r rest ih =>
    intro m l hle
    cases r with
    | none => exact ih m l (fun r hr => hle r (List.mem_cons_of_mem _ hr))
    | some q =>
      have hq : ¬ m < q.length := Nat.not_lt.mpr (hle q (List.mem_cons_self _ _))
      rw [show syncLoop (some q :: rest) m l = syncLoop rest m l by simp [syncLoop, hq]]
      exact ih m l (fun r hr => hle r (List.mem_cons_of_mem _ hr))

lemma syncLoop_adopt : ∀ (rs : List (Option ChainResponse)) (m : Nat)
    (l : Option ChainDict),
    ((syncLoop rs m l).2 = l ∧ (syncLoop rs m l).1 = m) ∨
    ∃ r, some r ∈ rs ∧ (syncLoop rs m l).2 = some r.chain ∧
      r.length = (syncLoop rs m l).1 ∧ m < (syncLoop rs m l).1 := by
  intro rs
  induction rs with
  | nil => intro m l; exact Or.inl ⟨rfl, rfl⟩
  | cons r rest ih =>
    intro m l
    cases r with
    | none =>
      rcases ih m l with h | ⟨r, hmem, h⟩
      · exact Or.inl h
      · exact Or.inr ⟨r, List.mem_cons_of_mem _ hmem, h⟩
    | some q =>
      by_cases h : m < q.length
      · rw [show syncLoop (some q :: rest) m l = syncLoop rest q.length (some q.chain) by
          simp [syncLoop, h]]
        rcases ih q.length (some q.chain) with ⟨h2, h1⟩ | ⟨r, hmem, h2, heq, hgt⟩
        · exact Or.inr ⟨q, List.mem_cons_self _ _, h2, by omega, by omega⟩
        · exact Or.inr ⟨r, List.mem_cons_of_mem _ hmem, h2, heq, by omega⟩
      · rw [show syncLoop (some q :: rest) m l = syncLoop rest m l by simp [syncLoop, h]]
        rcases ih m l with h2 | ⟨r, hmem, h2⟩
        · exact Or.inl h2
        · exact Or.inr ⟨r, List.mem_cons_of_mem _ hmem, h2⟩

lemma syncChain_eq_of_none (hashFn : BlockCore → String) (bc : Blockchain)
    (rs : List (Option ChainResponse))
    (h : (syncLoop rs bc.chain.length none).2 = none) :
    syncChain hashFn bc rs = (bc, SyncMsg.upToDate) := by
  simp only [syncChain, h]

lemma syncChain_eq_of_some (hashFn : BlockCore → String) (bc : Blockchain)
    (rs : List (Option ChainResponse)) (c : ChainDict)
    (h : (syncLoop rs bc.chain.length none).2 = some c) :
    syncChain hashFn bc rs =
      (bc.fromDict hashFn c,
       SyncMsg.synchronized (syncLoop rs bc.chain.length none).1) := by
  simp only [syncChain, h]

/-- C4: reconciliation adopts by strict length only. If no reachable peer
reports a length strictly greater than the local chain's, the local state is
returned unchanged (`"Chain is up to date"`); if some reachable peer reports a
strictly greater length, the adopted chain is one of the fetched ones, strictly
longer than the local chain and of maximal reported length among all fetched
candidates, and the local chain is replaced with it via `from_dict` (so, for
honest peers whose reported length equals their chain's block count, the new
local length equals that maximum). -/
theorem c4_sync_adopts_strictly_longest (hashFn : BlockCore → String)
    (bc : Blockchain) (rs : List (Option ChainResponse)) :
    ((∀ r, some r ∈ rs → r.length ≤ bc.chain.length) →
        syncChain hashFn bc rs = (bc, SyncMsg.upToDate)) ∧
    (∀ r0, some r0 ∈ rs → bc.chain.length < r0.length →
        ∃ r, some r ∈ rs ∧
          (syncChain hashFn bc rs).1 = bc.fromDict hashFn r.chain ∧
          bc.chain.length < r.length ∧
          (∀ q, some q ∈ rs → q.length ≤ r.length) ∧
          (r.length = r.chain.chain.length →
            (syncChain hashFn bc rs).1.chain.length = r.length)) := by
  constructor
  · intro hle
    exact syncChain_eq_of_none hashFn bc rs
      (by rw [syncLoop_stay rs bc.chain.length none hle])
  · intro r0 hr0 hlen
    rcases syncLoop_adopt rs bc.chain.length none with ⟨_, h1⟩ | ⟨r, hmem, h2, heq, _⟩
    · exfalso
      have hub := fetchedMax_ub rs bc.chain.length r0 hr0
      rw [syncLoop_fst] at h1
      omega
    · have hmax := syncLoop_fst rs bc.chain.length none
      refine ⟨r, hmem, ?_, ?_, ?_, ?_⟩
      · rw [syncChain_eq_of_some hashFn bc rs r.chain h2]
      · have := le_fetchedMax rs bc.chain.length
        have hub := fetchedMax_ub rs bc.chain.length r0 hr0
        omega
      · intro q hq
        have hub := fetchedMax_ub rs bc.chain.length q hq
        omega
      · intro hhon
        rw [syncChain_eq_of_some hashFn bc rs r.chain h2]
        simp [Blockchain.fromDict, hhon]

/-- C4 witness: a fresh node (length 1) with one reachable peer of length 2
adopts that peer's chain, and with no strictly longer peer keeps its state. -/
theorem c4_sync_adopts_strictly_longest_witness :
    (syncChain hashFn0 (initialBlockchain hashFn0 "node_A" 0) []
      = (initialBlockchain hashFn0 "node_A" 0, SyncMsg.upToDate)) ∧
    ∃ r, some r ∈ [some (getChainResponse ((addEvidence hashFn0 1 false
            (initialBlockchain hashFn0 "node_B" 0)
            "EV-9" "d" "B" "l" "P" "hh" "g" "t").1))] ∧
      (syncChain hashFn0 (initialBlockchain hashFn0 "node_A" 0)
          [some (getChainResponse ((addEvidence hashFn0 1 false
            (initialBlockchain hashFn0 "node_B" 0)
            "EV-9" "d" "B" "l" "P" "hh" "g" "t").1))]).1
        = (initialBlockchain hashFn0 "node_A" 0).fromDict hashFn0 r.chain ∧
      (initialBlockchain hashFn0 "node_A" 0).chain.length < r.length ∧
      (∀ q, some q ∈ [some (getChainResponse ((addEvidence hashFn0 1 false
            (initialBlockchain hashFn0 "node_B" 0)
            "EV-9" "d" "B" "l" "P" "hh" "g" "t").1))] → q.length ≤ r.length) ∧
      (r.length = r.chain.chain.length →
        (syncChain hashFn0 (initialBlockchain hashFn0 "node_A" 0)
          [some (getChainResponse ((addEvidence hashFn0 1 false
            (initialBlockchain hashFn0 "node_B" 0)
            "EV-9" "d" "B" "l" "P" "hh" "g" "t").1))]).1.chain.length = r.length) :=
  ⟨(c4_sync_adopts_strictly_longest hashFn0 (initialBlockchain hashFn0 "node_A" 0)
      []).1 (by intro r hr; simp at hr),
   (c4_sync_adopts_strictly_longest hashFn0 (initialBlockchain hashFn0 "node_A" 0)
      [some (getChainResponse ((addEvidence hashFn0 1 false
        (initialBlockchain hashFn0 "node_B" 0)
        "EV-9" "d" "B" "l" "P" "hh" "g" "t").1))]).2
     (getChainResponse ((addEvidence hashFn0 1 false
        (initialBlockchain hashFn0 "node_B" 0)
        "EV-9" "d" "B" "l" "P" "hh" "g" "t").1))
     (by simp) (by decide)⟩

/-! ### Claim C9 — reconciliation writes nothing to the persistent store -/

lemma syncChain_db (hashFn : BlockCore → String) (bc : Blockchain)
    (rs : List (Option ChainResponse)) :
    (syncChain hashFn bc rs).1.db = bc.db := by
  cases h : (syncLoop rs bc.chain.length none).2 with
  | none => rw [syncChain_eq_of_none hashFn bc rs h]
  | some c => rw [syncChain_eq_of_some hashFn bc rs c h]; rfl

lemma fromDict_toDict (hashFn : BlockCore → String) (b : Block) :
    Block.fromDict hashFn (Block.toDict b) = b := by
  cases b
  rfl

/-- C9: chain replacement during reconciliation writes nothing to the
persistent store — `sync_chain` adopts through `Blockchain.from_dict`, which
only mutates in-memory attributes. If the store held exactly the pre-adoption
chain, it still does after an adoption, and reloading the ledger from the store
(`load_from_database`) reproduces the pre-adoption chain, not the adopted one. -/
theorem c9_sync_does_not_persist (hashFn : BlockCore → String) (now : Nat)
    (bc : Blockchain) (rs : List (Option ChainResponse)) (L : Nat)
    (hdb : getAllBlocks bc.db = bc.chain.map Block.toDict)
    (hne : bc.chain ≠ [])
    (_hadopt : (syncChain hashFn bc rs).2 = SyncMsg.synchronized L) :
    getAllBlocks (syncChain hashFn bc rs).1.db = bc.chain.map Block.toDict ∧
    (loadFromDatabase hashFn now (syncChain hashFn bc rs).1).chain = bc.chain := by
  have h1 : getAllBlocks (syncChain hashFn bc rs).1.db = bc.chain.map Block.toDict := by
    rw [syncChain_db, hdb]
  refine ⟨h1, ?_⟩
  have hmapne : (bc.chain.map Block.toDict).isEmpty = false := by
    cases hc : bc.chain with
    | nil => exact absurd hc hne
    | cons x t => rfl
  simp only [loadFromDatabase, h1, hmapne, Bool.false_eq_true, if_false, List.map_map]
  show (bc.chain.map fun b => Block.fromDict hashFn (Block.toDict b)) = bc.chain
  calc bc.chain.map (fun b => Block.fromDict hashFn (Block.toDict b))
      = bc.chain.map id := by
        apply List.map_congr_left
        intro b _
        exact fromDict_toDict hashFn b
    _ = bc.chain := List.map_id _

/-- C9 witness: a fresh node adopts a longer peer chain; the store still holds
only the pre-adoption (genesis) block and reloading yields the pre-adoption
chain. -/
theorem c9_sync_does_not_persist_witness :
    getAllBlocks (syncChain hashFn0 (initialBlockchain hashFn0 "node_A" 0)
        [some (getChainResponse ((addEvidence hashFn0 1 false
          (initialBlockchain hashFn0 "node_B" 0)
          "EV-9" "d" "B" "l" "P" "hh" "g" "t").1))]).1.db
      = (initialBlockchain hashFn0 "node_A" 0).chain.map Block.toDict ∧
    (loadFromDatabase hashFn0 7 (syncChain hashFn0 (initialBlockchain hashFn0 "node_A" 0)
        [some (getChainResponse ((addEvidence hashFn0 1 false
          (initialBlockchain hashFn0 "node_B" 0)
          "EV-9" "d" "B" "l" "P" "hh" "g" "t").1))]).1).chain
      = (initialBlockchain hashFn0 "node_A" 0).chain :=
  c9_sync_does_not_persist hashFn0 7 (initialBlockchain hashFn0 "node_A" 0)
    [some (getChainResponse ((addEvidence hashFn0 1 false
      (initialBlockchain hashFn0 "node_B" 0)
      "EV-9" "d" "B" "l" "P" "hh" "g" "t").1))] 2
    (by decide) (by decide) (by decide)

/-! ### Claim C6 — ledger-produced chains always validate -/

lemma isChainValidFrom_append_iff (hashFn : BlockCore → String) :
    ∀ (c : List Block) (prev b : Block),
    isChainValidFrom hashFn prev (c ++ [b]) = true ↔
      (isChainValidFrom hashFn prev c = true ∧ b.hash = hashFn b.core ∧
       b.previous_hash = (c.getLastD prev).hash) := by
  intro c
  induction c with
  | nil =>
    intro prev b
    show isChainValidFrom hashFn prev [b] = true ↔ _
    by_cases h1 : b.hash = hashFn b.core
    · by_cases h2 : b.previous_hash = prev.hash
      · simp [isChainValidFrom, h1, h2, List.getLastD]
      · simp [isChainValidFrom, h1, h2, List.getLastD]
    · simp [isChainValidFrom, h1, List.getLastD]
  | cons x xs ih =>
    intro prev b
    show isChainValidFrom hashFn prev (x :: (xs ++ [b])) = true ↔ _
    by_cases h1 : x.hash = hashFn x.core
    · by_cases h2 : x.previous_hash = prev.hash
      · have hL : isChainValidFrom hashFn prev (x :: (xs ++ [b]))
            = isChainValidFrom hashFn x (xs ++ [b]) := by
          simp [isChainValidFrom, h1, h2]
        have hR : isChainValidFrom hashFn prev (x :: xs)
            = isChainValidFrom hashFn x xs := by
          simp [isChainValidFrom, h1, h2]
        rw [hL, ih x b, hR, List.getLastD_cons]
      · simp [isChainValidFrom, h1, h2]
    · simp [isChainValidFrom, h1]

lemma isChainValid_append (hashFn : BlockCore → String) (x : Block) (t : List Block)
    (b : Block) (hv : isChainValid hashFn (x :: t) = true)
    (hh : b.hash = hashFn b.core) (hp : b.previous_hash = (t.getLastD x).hash) :
    isChainValid hashFn ((x :: t) ++ [b]) = true := by
  show isChainValidFrom hashFn x (t ++ [b]) = true
  rw [isChainValidFrom_append_iff]
  exact ⟨hv, hh, hp⟩

lemma createBlock_chainInv (hashFn : BlockCore → String) (now : Nat) (f : Bool)
    (bc : Blockchain) (h : chainInv hashFn bc) :
    chainInv hashFn (createBlock hashFn now f bc).1 := by
  obtain ⟨hv, hne⟩ := h
  unfold createBlock
  by_cases hp : bc.pending_transactions.isEmpty
  · simp only [hp, if_true]
    exact ⟨hv, hne⟩
  · simp only [hp, Bool.false_eq_true, if_false]
    cases hc : bc.chain with
    | nil => exact absurd hc hne
    | cons x t =>
      rw [getLast?_eq_getLastD]
      constructor
      · show isChainValid hashFn ((x :: t) ++ [_]) = true
        apply isChainValid_append hashFn x t _ (by rw [← hc]; exact hv) rfl rfl
      · simp
  
lemma addTransaction_chainInv (hashFn : BlockCore → String) (now : Nat) (f : Bool)
    (bc : Blockchain) (tx : Obj) (h : chainInv hashFn bc) :
    chainInv hashFn (addTransaction hashFn now f bc tx).1 :=
  createBlock_chainInv hashFn now f _ h

lemma receiveTransaction_chainInv (hashFn : BlockCore → String) (now : Nat) (f : Bool)
    (bc : Blockchain) (tx : Obj) (h : chainInv hashFn bc) :
    chainInv hashFn (receiveTransaction hashFn now f bc tx) :=
  createBlock_chainInv hashFn now f _ h

lemma initialBlockchain_chainInv (hashFn : BlockCore → String) (nid : String)
    (now : Nat) : chainInv hashFn (initialBlockchain hashFn nid now) := by
  constructor
  · rfl
  · simp [initialBlockchain, createGenesisBlock]

lemma foldl_local_chainInv (hashFn : BlockCore → String) :
    ∀ (ops : List NodeOp) (bc : Blockchain), ops.all NodeOp.isLocal = true →
    chainInv hashFn bc → chainInv hashFn (ops.foldl (applyNodeOp hashFn) bc) := by
  intro ops
  induction ops with
  | nil => intro bc _ h; exact h
  | cons op rest ih =>
    intro bc hall h
    rw [List.all_cons, Bool.and_eq_true] at hall
    rw [List.foldl_cons]
    refine ih _ hall.2 ?_
    cases op with
    | submit tx now f => exact addTransaction_chainInv hashFn now f bc tx h
    | receive tx now f => exact receiveTransaction_chainInv hashFn now f bc tx h
    | sync rs => simp [NodeOp.isLocal] at hall

/-- C6: for every chain produced by the ledger's own local operations (any
sequence of `add_transaction` submissions and `/transaction/receive` inbound
broadcasts from a fresh node, with or without storage failures),
`is_chain_valid` returns true — every block sealed by `create_block` stores the
digest of its own fields as `hash` and the previous block's `hash` as
`previous_hash`, so every append preserves the hash-chaining invariant. -/
theorem c6_ledger_chains_validate (hashFn : BlockCore → String) (nid : String)
    (now0 : Nat) (ops : List NodeOp) (hloc : ops.all NodeOp.isLocal = true) :
    isChainValid hashFn (runNode hashFn nid now0 ops).chain = true :=
  (foldl_local_chainInv hashFn ops (initialBlockchain hashFn nid now0) hloc
    (initialBlockchain_chainInv hashFn nid now0)).1

/-- C6 witness: a concrete run with one submission, one received broadcast and
one submission under a failing store write validates. -/
theorem c6_ledger_chains_validate_witness :
    isChainValid hashFn0 (runNode hashFn0 "node1" 0
      [NodeOp.submit (creationTx "EV-1" "k" "A" "s" "P" "h" "t1" "node1") 1 false,
       NodeOp.receive (transferTx "EV-1" "A" "B" "lab" "t2" "node2") 2 false,
       NodeOp.submit (transferTx "EV-1" "B" "C" "court" "t3" "node1") 3 true]).chain
      = true :=
  c6_ledger_chains_validate hashFn0 "node1" 0
    [NodeOp.submit (creationTx "EV-1" "k" "A" "s" "P" "h" "t1" "node1") 1 false,
     NodeOp.receive (transferTx "EV-1" "A" "B" "lab" "t2" "node2") 2 false,
     NodeOp.submit (transferTx "EV-1" "B" "C" "court" "t3" "node1") 3 true]
    (by decide)

/-! ### Claim C7 — exact characterization of the validity scan -/

lemma fin_succ_cases {n : Nat} {P : Fin (n + 1) → Prop} :
    (∃ i, P i) ↔
      P ⟨0, Nat.succ_pos n⟩ ∨ ∃ i : Fin n, P ⟨i.val + 1, Nat.succ_lt_succ i.isLt⟩ := by
  constructor
  · rintro ⟨⟨v, hv⟩, hp⟩
    cases v with
    | zero => exact Or.inl hp
    | succ k => exact Or.inr ⟨⟨k, Nat.lt_of_succ_lt_succ hv⟩, hp⟩
  · rintro (h | ⟨i, h⟩)
    · exact ⟨_, h⟩
    · exact ⟨_, h⟩

lemma isChainValidFrom_false_iff (hashFn : BlockCore → String) :
    ∀ (l : List Block) (prev : Block),
    isChainValidFrom hashFn prev l = false ↔
      ∃ j : Fin l.length, (l.get j).hash ≠ hashFn (l.get j).core ∨
        (l.get j).previous_hash ≠ (prevAt prev l j).hash := by
  intro l
  induction l with
  | nil =>
    intro prev
    constructor
    · intro h; simp [isChainValidFrom] at h
    · rintro ⟨j, _⟩; exact (Nat.not_lt_zero _ j.isLt).elim
  | cons cur rest ih =>
    intro prev
    simp only [List.length_cons]
    rw [fin_succ_cases]
    by_cases h1 : cur.hash = hashFn cur.core
    · by_cases h2 : cur.previous_hash = prev.hash
      · have hL : isChainValidFrom hashFn prev (cur :: rest)
            = isChainValidFrom hashFn cur rest := by
          simp [isChainValidFrom, h1, h2]
        rw [hL, ih cur]
        constructor
        · rintro ⟨j, hj⟩
          exact Or.inr ⟨j, hj⟩
        · rintro (h0 | ⟨j, hj⟩)
          · rcases h0 with h0 | h0
            · exact absurd h1 h0
            · exact absurd h2 h0
          · exact ⟨j, hj⟩
      · constructor
        · intro _
          exact Or.inl (Or.inr h2)
        · intro _
          simp [isChainValidFrom, h1, h2]
    · constructor
      · intro _
        exact Or.inl (Or.inl h1)
      · intro _
        simp [isChainValidFrom, h1]

/-- C7: `is_chain_valid` returns false exactly when some block at index
`1 <= i < len(chain)` has a stored hash differing from the digest recomputed
over its `(index, timestamp, payload, previous_hash, nonce)` fields, or a
`previous_hash` differing from block `i-1`'s stored hash; otherwise it returns
true. (The Python method only reads the chain — the embedding is a pure
function of it, so it modifies nothing.) -/
theorem c7_validity_characterization (hashFn : BlockCore → String)
    (chain : List Block) :
    isChainValid hashFn chain = false ↔ specInvalid hashFn chain := by
  cases chain with
  | nil =>
    constructor
    · intro h; simp [isChainValid] at h
    · rintro ⟨j, _⟩; exact (Nat.not_lt_zero _ j.isLt).elim
  | cons b rest =>
    show isChainValidFrom hashFn b rest = false ↔ _
    rw [isChainValidFrom_false_iff hashFn rest b]
    unfold specInvalid
    simp only [List.length_cons]
    rw [fin_succ_cases]
    constructor
    · rintro ⟨j, hj⟩
      exact Or.inr ⟨j, Nat.succ_le_succ (Nat.zero_le _), hj⟩
    · rintro (⟨h0, _⟩ | ⟨j, _, hj⟩)
      · exact (Nat.not_succ_le_zero 0 h0).elim
      · exact ⟨j, hj⟩

/-! ### Claim C8 — malformed transactions and block sealing -/

/-- C8 counterexample: the empty transaction dictionary is missing every
required field, yet `/transaction/receive` seals it into a new block — the
chain grows by one block holding the malformed transaction. -/
theorem c8_counterexample :
    (Obj.get [] "evidence_id" = none ∧ Obj.get [] "type" = none ∧
     Obj.get [] "officer" = none ∧ Obj.get [] "action" = none) ∧
    (receiveTransaction hashFn0 1 false (initialBlockchain hashFn0 "node1" 0)
        []).chain.length
      = (initialBlockchain hashFn0 "node1" 0).chain.length + 1 := by decide

/-- C8 amended: local submissions through the `/evidence` route do fail before
any block is sealed when a required top-level field is missing (the handler's
`data[...]` lookups raise `KeyError` before touching the ledger), but
`/transaction/receive` performs no validation at all: every received
transaction, however malformed, results in exactly one new block appended to
the chain. -/
theorem c8_receive_never_validates (hashFn : BlockCore → String) (now : Nat)
    (f : Bool) (bc : Blockchain) (genHash ts : String) :
    (∀ data : Obj,
      (data.get "evidence_id" = none ∨ data.get "description" = none ∨
       data.get "officer" = none ∨ data.get "location" = none ∨
       data.get "evidence_type" = none) →
      addEvidenceRoute hashFn now f bc genHash ts data = Except.error "KeyError") ∧
    (∀ tx : Obj, bc.chain ≠ [] →
      (receiveTransaction hashFn now f bc tx).chain.length = bc.chain.length + 1) := by
  constructor
  · intro data hmiss
    unfold addEvidenceRoute
    cases hA : data.get "evidence_id" <;> cases hB : data.get "description" <;>
      cases hC : data.get "officer" <;> cases hD : data.get "location" <;>
      cases hE : data.get "evidence_type" <;> simp_all
  · intro tx hne
    rcases List.eq_nil_or_concat bc.chain with hc | ⟨l, a, hc⟩
    · exact absurd hc hne
    · unfold receiveTransaction createBlock
      have hp : (bc.pending_transactions ++ [tx]).isEmpty = false := by
        cases bc.pending_transactions <;> rfl
      simp [hp, hc, List.getLast?_concat]

/-- C8 witness: a request missing `officer` (and more) is rejected with
`KeyError` before sealing, while a well-formed received broadcast grows the
chain by one. -/
theorem c8_receive_never_validates_witness :
    addEvidenceRoute hashFn0 1 false (initialBlockchain hashFn0 "node1" 0) "g" "t"
        [("evidence_id", "EV-1")] = Except.error "KeyError" ∧
    (receiveTransaction hashFn0 1 false (initialBlockchain hashFn0 "node1" 0)
        (creationTx "EV-2" "d" "A" "l" "P" "h" "t" "node1")).chain.length
      = (initialBlockchain hashFn0 "node1" 0).chain.length + 1 :=
  ⟨(c8_receive_never_validates hashFn0 1 false (initialBlockchain hashFn0 "node1" 0)
      "g" "t").1 [("evidence_id", "EV-1")] (by decide),
   (c8_receive_never_validates hashFn0 1 false (initialBlockchain hashFn0 "node1" 0)
      "g" "t").2 (creationTx "EV-2" "d" "A" "l" "P" "h" "t" "node1") (by decide)⟩

/-! ### Claim C1 — projection agreement -/

lemma upsertEvidence_fresh : ∀ (l : List EvidenceRow) (r : EvidenceRow),
    (l.all fun x => x.evidence_id != r.evidence_id) = true →
    upsertEvidenceRow l r = l ++ [r] := by
  intro l r hall
  unfold upsertEvidenceRow
  congr 1
  induction l with
  | nil => rfl
  | cons x xs ih =>
    rw [List.all_cons, Bool.and_eq_true] at hall
    have hx : sqlKeyEq x.evidence_id r.evidence_id = false :=
      sqlKeyEq_eq_false_of_ne _ _ (bne_iff_ne.mp hall.1)
    simp [List.filter_cons, hx, ih hall.2]

lemma getAllEvidenceScan_append (chain : List Block) (b : Block) (hne : chain ≠ []) :
    getAllEvidenceScan (chain ++ [b]) = scanBlockStep (getAllEvidenceScan chain) b := by
  cases chain with
  | nil => exact absurd rfl hne
  | cons x t =>
    show (t ++ [b]).foldl scanBlockStep [] = scanBlockStep (t.foldl scanBlockStep []) b
    rw [List.foldl_append]
    rfl

lemma scanBlockStep_mk (hashFn : BlockCore → String) (d : List ScanRow)
    (i ts0 : Nat) (ph : String) (tx : Obj) :
    scanBlockStep d (mkBlock hashFn i ts0 (BlockData.txList [tx]) ph 0)
      = scanTx d i tx := rfl

lemma saveBlock_evidence_creation (hashFn : BlockCore → String) (db : DBState)
    (nid : String) (i ts0 : Nat) (ph : String) (tx : Obj) (hne0 : i ≠ 0)
    (hty : Obj.get tx "type" = some "evidence_creation") :
    (saveBlock db (mkBlock hashFn i ts0 (BlockData.txList [tx]) ph 0) nid).evidence
      = upsertEvidenceRow db.evidence (evidenceCreationRow tx i) := by
  simp only [saveBlock, saveBlockResult, mkBlock, processBlockTransactions]
  rw [if_neg hne0]
  show ((processTxs i _ [tx]).getD db).evidence = _
  unfold processTxs processTx
  rw [hty]
  simp [processTxs]

lemma saveBlock_evidence_transfer (hashFn : BlockCore → String) (db : DBState)
    (nid : String) (i ts0 : Nat) (ph : String) (tx : Obj) (eid : String)
    (hne0 : i ≠ 0) (hty : Obj.get tx "type" = some "evidence_transfer")
    (he : Obj.get tx "evidence_id" = some eid)
    (hok : transferInsertOk tx = true) :
    (saveBlock db (mkBlock hashFn i ts0 (BlockData.txList [tx]) ph 0) nid).evidence
      = db.evidence.map
          (fun r => if r.evidence_id == some eid then applyTransferUpdate tx r else r) := by
  simp only [saveBlock, saveBlockResult, mkBlock, processBlockTransactions]
  rw [if_neg hne0]
  show ((processTxs i _ [tx]).getD db).evidence = _
  unfold processTxs processTx
  rw [hty, he, hok]
  simp [processTxs]

lemma addTransaction_state (hashFn : BlockCore → String) (now : Nat) (f : Bool)
    (bc : Blockchain) (tx : Obj) (x : Block) (t : List Block)
    (hpend : bc.pending_transactions = []) (hc : bc.chain = x :: t) :
    (addTransaction hashFn now f bc tx).1 =
      { bc with
        chain := bc.chain ++ [mkBlock hashFn bc.chain.length now
          (BlockData.txList [tx]) (t.getLastD x).hash 0],
        pending_transactions := [],
        db := if f then bc.db
              else saveBlock bc.db (mkBlock hashFn bc.chain.length now
                (BlockData.txList [tx]) (t.getLastD x).hash 0) bc.node_id } := by
  unfold addTransaction createBlock
  simp only [hpend, List.nil_append]
  rw [show ({ bc with pending_transactions := [tx] } : Blockchain).chain.getLast?
      = some (t.getLastD x) by show bc.chain.getLast? = _; rw [hc, getLast?_eq_getLastD]]
  show ({ bc with
      chain := bc.chain ++ [mkBlock hashFn bc.chain.length now
        (BlockData.txList [tx]) (t.getLastD x).hash 0],
      pending_transactions := [],
      db := if f then bc.db
            else saveBlock bc.db (mkBlock hashFn bc.chain.length now
              (BlockData.txList [tx]) (t.getLastD x).hash 0) bc.node_id } : Blockchain) = _
  rfl

lemma projAgrees_any : ∀ (l1 : List EvidenceRow) (l2 : List ScanRow),
    l1.map evTriple = l2.map scanTriple → ∀ eid : String,
    (l1.any fun r => r.evidence_id == some eid)
      = (l2.any fun s => s.evidence_id == eid) := by
  intro l1
  induction l1 with
  | nil =>
    intro l2 h eid
    cases l2 with
    | nil => rfl
    | cons s t => simp at h
  | cons r t1 ih =>
    intro l2 h eid
    cases l2 with
    | nil => simp at h
    | cons s t2 =>
      simp only [List.map_cons, List.cons.injEq] at h
      obtain ⟨hhead, htail⟩ := h
      have hid : r.evidence_id = some s.evidence_id := congrArg Prod.fst hhead
      rw [List.any_cons, List.any_cons, ih t2 htail eid, hid, option_beq_some]

lemma all_bne_any_beq_false (l : List EvidenceRow) (v : Option String)
    (h : (l.all fun r => r.evidence_id != v) = true) :
    (l.any fun r => r.evidence_id == v) = false := by
  cases hx : (l.any fun r => r.evidence_id == v) with
  | false => rfl
  | true =>
    obtain ⟨r, hr, hp⟩ := List.any_eq_true.mp hx
    have := bne_iff_ne.mp (List.all_eq_true.mp h r hr)
    rw [beq_eq_false_iff_ne.mpr this] at hp
    cases hp

lemma projAgrees_update : ∀ (l1 : List EvidenceRow) (l2 : List ScanRow),
    l1.map evTriple = l2.map scanTriple → ∀ (eid : String) (tx : Obj),
    Obj.get tx "action" = some "Transferred" →
    ((l1.map fun r => if r.evidence_id == some eid then applyTransferUpdate tx r
        else r).map evTriple)
      = ((l2.map fun s => if s.evidence_id == eid then
          { s with current_officer := Obj.get tx "to_officer",
                   last_action := Obj.get tx "action" } else s).map scanTriple) := by
  intro l1
  induction l1 with
  | nil =>
    intro l2 h eid tx hact
    cases l2 with
    | nil => rfl
    | cons s t => simp at h
  | cons r t1 ih =>
    intro l2 h eid tx hact
    cases l2 with
    | nil => simp at h
    | cons s t2 =>
      simp only [List.map_cons, List.cons.injEq] at h
      obtain ⟨hhead, htail⟩ := h
      simp only [List.map_cons, List.cons.injEq]
      refine ⟨?_, ih t2 htail eid tx hact⟩
      have hid : r.evidence_id = some s.evidence_id := congrArg Prod.fst hhead
      by_cases hcnd : s.evidence_id = eid
      · have h1 : (s.evidence_id == eid) = true := beq_iff_eq.mpr hcnd
        have h2 : (r.evidence_id == some eid) = true := by
          rw [hid, option_beq_some]; exact h1
        rw [if_pos h1, if_pos h2]
        show (r.evidence_id, Obj.get tx "to_officer", some "Transferred")
          = (some s.evidence_id, Obj.get tx "to_officer", Obj.get tx "action")
        rw [hid, hact]
      · have h1 : ¬ (s.evidence_id == eid) = true := by
          rw [beq_eq_false_iff_ne.mpr hcnd]; exact Bool.false_ne_true
        have h2 : ¬ (r.evidence_id == some eid) = true := by
          rw [hid, option_beq_some, beq_eq_false_iff_ne.mpr hcnd]
          exact Bool.false_ne_true
        rw [if_neg h1, if_neg h2]
        exact hhead

lemma projAgrees_facts : ∀ (l1 : List EvidenceRow) (l2 : List ScanRow),
    l1.map evTriple = l2.map scanTriple → ∀ eid : String,
    ((l1.find? fun r => r.evidence_id == some eid).map
        fun r => (r.current_officer, r.last_action))
      = ((l2.find? fun s => s.evidence_id == eid).map
        fun s => (s.current_officer, s.last_action)) := by
  intro l1
  induction l1 with
  | nil =>
    intro l2 h eid
    cases l2 with
    | nil => rfl
    | cons s t => simp at h
  | cons r t1 ih =>
    intro l2 h eid
    cases l2 with
    | nil => simp at h
    | cons s t2 =>
      simp only [List.map_cons, List.cons.injEq] at h
      obtain ⟨hhead, htail⟩ := h
      have hid : r.evidence_id = some s.evidence_id := congrArg Prod.fst hhead
      have hsnd : (r.current_officer, r.last_action)
          = (s.current_officer, s.last_action) := congrArg Prod.snd hhead
      by_cases hcnd : s.evidence_id = eid
      · have h1 : (s.evidence_id == eid) = true := beq_iff_eq.mpr hcnd
        have h2 : (r.evidence_id == some eid) = true := by
          rw [hid, option_beq_some]; exact h1
        rw [@List.find?_cons_of_pos _ (fun x => x.evidence_id == some eid) r t1 h2,
            @List.find?_cons_of_pos _ (fun x => x.evidence_id == eid) s t2 h1]
        show some (r.current_officer, r.last_action)
          = some (s.current_officer, s.last_action)
        rw [hsnd]
      · have h1 : ¬ (s.evidence_id == eid) = true := by
          rw [beq_eq_false_iff_ne.mpr hcnd]; exact Bool.false_ne_true
        have h2 : ¬ (r.evidence_id == some eid) = true := by
          rw [hid, option_beq_some, beq_eq_false_iff_ne.mpr hcnd]
          exact Bool.false_ne_true
        rw [@List.find?_cons_of_neg _ (fun x => x.evidence_id == some eid) r t1 h2,
            @List.find?_cons_of_neg _ (fun x => x.evidence_id == eid) s t2 h1]
        exact ih t2 htail eid

lemma scanTx_creationTx (dlist : List ScanRow) (i : Nat)
    (eid d off loc ty hv ts node : String) (heid : eid ≠ "")
    (hnotin : (dlist.any fun s => s.evidence_id == eid) = false) :
    scanTx dlist i (creationTx eid d off loc ty hv ts node)
      = dlist ++
        [{ evidence_id := eid, description := d, etype := ty,
           current_officer := pyOr (some off) none, created := some ts,
           last_action := some "Created", block_index := i }] := by
  simp only [scanTx, creationTx_get_evidence_id, creationTx_get_type,
    creationTx_get_description, creationTx_get_officer, creationTx_get_evidence_type,
    creationTx_get_timestamp, creationTx_get_action, creationTx_get_to_officer]
  rw [if_neg heid, hnotin]
  simp

lemma scanTx_transferTx (dlist : List ScanRow) (i : Nat)
    (eid fo toOff rsn ts node : String) (heid : eid ≠ "")
    (hin : (dlist.any fun s => s.evidence_id == eid) = true) :
    scanTx dlist i (transferTx eid fo toOff rsn ts node)
      = dlist.map fun s => if s.evidence_id == eid then
          { s with
            current_officer := Obj.get (transferTx eid fo toOff rsn ts node) "to_officer",
            last_action := Obj.get (transferTx eid fo toOff rsn ts node) "action" }
        else s := by
  simp only [scanTx, transferTx_get_evidence_id, transferTx_get_type]
  rw [if_neg heid, hin]
  simp

lemma evStep_nodeInv (hashFn : BlockCore → String) (bc : Blockchain) (op : EvOp)
    (hinv : nodeInv bc) (hgood : goodEvOp bc op = true) :
    nodeInv (applyEvOp hashFn bc op) := by
  obtain ⟨hpend, hne, hproj⟩ := hinv
  cases hc : bc.chain with
  | nil => exact absurd hc hne
  | cons x t =>
  have hlen0 : bc.chain.length ≠ 0 := by rw [hc]; simp
  cases op with
  | create eid d off loc ty hv gh ts now =>
    simp only [goodEvOp, Bool.and_eq_true, bne_iff_ne, List.all_eq_true] at hgood
    obtain ⟨⟨heid, hoff⟩, hall⟩ := hgood
    show nodeInv (addTransaction hashFn now false bc
      (creationTx eid d off loc ty (if hv = "" then gh else hv) ts bc.node_id)).1
    rw [addTransaction_state hashFn now false bc _ x t hpend hc]
    refine ⟨rfl, by simp, ?_⟩
    have hallB : (bc.db.evidence.all fun r => r.evidence_id != some eid) = true :=
      List.all_eq_true.mpr fun r hr => bne_iff_ne.mpr (hall r hr)
    have hanyDb := all_bne_any_beq_false _ _ hallB
    have hanyScan : ((getAllEvidenceScan bc.chain).any fun s => s.evidence_id == eid)
        = false := by
      rw [← projAgrees_any _ _ hproj eid]; exact hanyDb
    show (saveBlock bc.db (mkBlock hashFn bc.chain.length now
        (BlockData.txList [creationTx eid d off loc ty (if hv = "" then gh else hv)
          ts bc.node_id]) (t.getLastD x).hash 0) bc.node_id).evidence.map evTriple
      = (getAllEvidenceScan (bc.chain ++ [mkBlock hashFn bc.chain.length now
        (BlockData.txList [creationTx eid d off loc ty (if hv = "" then gh else hv)
          ts bc.node_id]) (t.getLastD x).hash 0])).map scanTriple
    rw [saveBlock_evidence_creation hashFn bc.db bc.node_id bc.chain.length now
        (t.getLastD x).hash _ hlen0 (by simp),
      getAllEvidenceScan_append bc.chain _ hne, scanBlockStep_mk,
      upsertEvidence_fresh _ _ hallB,
      scanTx_creationTx _ _ eid d off loc ty (if hv = "" then gh else hv)
        ts bc.node_id heid hanyScan,
      List.map_append, List.map_append, hproj]
    show _ ++ [(some eid, some off, some "Created")]
      = _ ++ [(some eid, pyOr (some off) none, some "Created")]
    have hpy : pyOr (some off) none = some off := by
      show (if off = "" then none else some off) = some off
      rw [if_neg hoff]
    rw [hpy]
  | transfer eid fo toOff rsn ts now =>
    simp only [goodEvOp, Bool.and_eq_true, bne_iff_ne] at hgood
    obtain ⟨heid, hany⟩ := hgood
    show nodeInv (addTransaction hashFn now false bc
      (transferTx eid fo toOff rsn ts bc.node_id)).1
    rw [addTransaction_state hashFn now false bc _ x t hpend hc]
    refine ⟨rfl, by simp, ?_⟩
    have hanyScan : ((getAllEvidenceScan bc.chain).any fun s => s.evidence_id == eid)
        = true := by
      rw [← projAgrees_any _ _ hproj eid]; exact hany
    show (saveBlock bc.db (mkBlock hashFn bc.chain.length now
        (BlockData.txList [transferTx eid fo toOff rsn ts bc.node_id])
        (t.getLastD x).hash 0) bc.node_id).evidence.map evTriple
      = (getAllEvidenceScan (bc.chain ++ [mkBlock hashFn bc.chain.length now
        (BlockData.txList [transferTx eid fo toOff rsn ts bc.node_id])
        (t.getLastD x).hash 0])).map scanTriple
    rw [saveBlock_evidence_transfer hashFn bc.db bc.node_id bc.chain.length now
        (t.getLastD x).hash _ eid hlen0 (by simp) (by simp)
        (by simp [transferInsertOk]),
      getAllEvidenceScan_append bc.chain _ hne, scanBlockStep_mk,
      scanTx_transferTx _ _ eid fo toOff rsn ts bc.node_id heid hanyScan]
    exact projAgrees_update _ _ hproj eid _ (by simp)

lemma initialBlockchain_nodeInv (hashFn : BlockCore → String) (nid : String)
    (now : Nat) : nodeInv (initialBlockchain hashFn nid now) :=
  ⟨rfl, by simp [initialBlockchain, createGenesisBlock], rfl⟩

lemma goodTrace_nodeInv (hashFn : BlockCore → String) :
    ∀ (ops : List EvOp) (bc : Blockchain), goodTrace hashFn bc ops = true →
    nodeInv bc → nodeInv (ops.foldl (applyEvOp hashFn) bc) := by
  intro ops
  induction ops with
  | nil => intro bc _ h; exact h
  | cons op rest ih =>
    intro bc hg h
    simp only [goodTrace, Bool.and_eq_true] at hg
    rw [List.foldl_cons]
    exact ih _ hg.2 (evStep_nodeInv hashFn bc op h hg.1)

/-- C1 counterexample: reconciliation (`/sync`) replaces the in-memory chain
through `from_dict` without writing to the store, so after adopting a peer
chain that created item `EV-9`, the database read path used by
`get_all_evidence` knows nothing about `EV-9` while a full chain scan reports
it — the projection disagrees with the chain. -/
theorem c1_counterexample :
    dbFacts (runNode hashFn0 "node_A" 0
        [NodeOp.sync [some (getChainResponse ((addEvidence hashFn0 1 false
          (initialBlockchain hashFn0 "node_B" 0)
          "EV-9" "d" "B" "l" "P" "hh" "g" "t").1))]]).db "EV-9"
      ≠ scanFacts (runNode hashFn0 "node_A" 0
        [NodeOp.sync [some (getChainResponse ((addEvidence hashFn0 1 false
          (initialBlockchain hashFn0 "node_B" 0)
          "EV-9" "d" "B" "l" "P" "hh" "g" "t").1))]]).chain "EV-9" := by decide

/-- C1 amended: projection agreement holds for the locally sealed history but
not across chain replacement. For every sequence of custody-event calls
(`add_evidence` / `transfer_evidence`, equivalently well-formed received
broadcasts) with successful store writes, in which each creation uses a fresh
nonempty item id and a nonempty officer and each transfer targets an existing
item, the database read path and the full chain scan report the same per-item
facts (existence, current custodian, last action) for every item id.
Reconciliation's wholesale replacement breaks this agreement because it
bypasses the store (see the counterexample). -/
theorem c1_projection_agrees_on_local_history (hashFn : BlockCore → String)
    (nid : String) (now0 : Nat) (ops : List EvOp)
    (hg : goodTrace hashFn (initialBlockchain hashFn nid now0) ops = true)
    (eid : String) :
    dbFacts (runEvOps hashFn nid now0 ops).db eid
      = scanFacts (runEvOps hashFn nid now0 ops).chain eid := by
  have hinv := goodTrace_nodeInv hashFn ops (initialBlockchain hashFn nid now0) hg
    (initialBlockchain_nodeInv hashFn nid now0)
  obtain ⟨_, _, hproj⟩ := hinv
  unfold dbFacts scanFacts
  exact projAgrees_facts _ _ hproj eid

/-- C1 witness: create `EV-1` with officer `A`, transfer it to `B`; both read
paths agree on the facts for `EV-1`. -/
theorem c1_projection_agrees_on_local_history_witness :
    dbFacts (runEvOps hashFn0 "node1" 0
        [EvOp.create "EV-1" "knife" "A" "scene" "Physical" "" "g1" "t1" 1,
         EvOp.transfer "EV-1" "A" "B" "lab" "t2" 2]).db "EV-1"
      = scanFacts (runEvOps hashFn0 "node1" 0
        [EvOp.create "EV-1" "knife" "A" "scene" "Physical" "" "g1" "t1" 1,
         EvOp.transfer "EV-1" "A" "B" "lab" "t2" 2]).chain "EV-1" :=
  c1_projection_agrees_on_local_history hashFn0 "node1" 0
    [EvOp.create "EV-1" "knife" "A" "scene" "Physical" "" "g1" "t1" 1,
     EvOp.transfer "EV-1" "A" "B" "lab" "t2" 2] (by decide) "EV-1"
